import Mathlib

/-!
Verification of the document ingestion and retrieval pipeline of the
course-agent RAG backend (backend/app/core/embeddings.py,
backend/app/core/qdrant_service.py and the two retrieval call sites in
backend/app/api/routes/chat.py and backend/app/api/routes/documents.py).

The Python functions are shallowly embedded as executable Lean
definitions.  External collaborators are embedded as parameters or as an
explicit store value:

* the OpenAI embeddings endpoint is a parameter
  api : List String -> Except String (List (List Int))
  (one remote call per invocation; a float vector is abstracted as a
  List Int, no arithmetic on vector components is ever performed by the
  verified code);
* the qdrant collection is a List ChunkRecord threaded through the
  operations; its scroll / search / delete calls are embedded after the
  qdrant-client semantics: scroll returns at most limit matching records
  of a single page together with a next-page offset (the qdrant-client
  default limit is 10 when the caller passes none), search returns the
  matching records ranked by a score oracle, delete removes records by
  id, upsert overwrites records with a colliding id and appends the rest;
* uuid4, md5, datetime.utcnow and the configured model name are
  parameters (documentId, chunkId, contentHash, now, model), since the
  claims only relate their single shared value to the produced records.
-/

/-- Accumulator pass of Python str.split() with no argument over the
character sequence: characters accumulate into the current token (kept
reversed), any whitespace character ends the current token, and empty
tokens are never emitted. -/
def pywordsAux : List Char → List Char → List String
  | [], [] => []
  | [], cur => [String.mk cur.reverse]
  | c :: cs, cur =>
    if c.isWhitespace then
      match cur with
      | [] => pywordsAux cs []
      | _ => String.mk cur.reverse :: pywordsAux cs []
    else pywordsAux cs (c :: cur)

/-- Whitespace tokenization: Python str.split() with no argument, which
splits on runs of whitespace and never yields empty tokens. -/
def pywords (s : String) : List String :=
  pywordsAux s.data []

/-- Python str.strip() with no argument: remove leading and trailing
whitespace characters.  Needed to state the specification sentence about
the whole trimmed input. -/
def pytrim (s : String) : String :=
  String.mk (((s.data.dropWhile Char.isWhitespace).reverse.dropWhile
    Char.isWhitespace).reverse)

/-- Word windows of the loop in chunk_text (embeddings.py, lines 56-70):
for i in range(0, len(words), chunk_size - overlap) take words[i : i + chunk_size],
breaking after the window whose end reaches len(words).  The fuel
argument only drives structural recursion: every iteration drops
chunk_size - overlap >= 1 words, so fuel = length of the word list never
runs out (the zero-fuel branch is unreachable, see chunkWordsGo_fuel). -/
def chunkWordsGo (size overlap : Nat) : Nat → List String → List (List String)
  | _, [] => []
  | 0, _ :: _ => []
  | fuel + 1, w :: tl =>
    if (w :: tl).length ≤ size then [(w :: tl).take size]
    else (w :: tl).take size :: chunkWordsGo size overlap fuel ((w :: tl).drop (size - overlap))

/-- Word windows of chunk_text.  When the stride chunk_size - overlap is
not positive, Python range() yields no offsets (negative stride) or
raises (zero stride); either way no window is produced, which the first
branch models. -/
def chunkWords (size overlap : Nat) (ws : List String) : List (List String) :=
  if size ≤ overlap then []
  else chunkWordsGo size overlap ws.length ws

/-- chunk_text (embeddings.py, lines 56-70).  Each emitted window is
joined with single spaces.  The guard `if chunk.strip()` of the source
always passes: every emitted window is a nonempty list of nonempty,
whitespace-free tokens produced by str.split(), so the joined chunk
always has a non-whitespace character.  The source defaults are
chunk_size = 500 and overlap = 50; every caller in the repository uses
the defaults. -/
def chunk_text (text : String) (size : Nat) (overlap : Nat) : List String :=
  (chunkWords size overlap (pywords text)).map (String.intercalate " ")

/-- Per-input cleaning step of generate_embeddings (embeddings.py, lines
84-96): collapse whitespace runs via join(split()), substitute the
placeholder "empty text" for an empty result, and truncate a cleaned
string longer than 32000 characters. -/
def cleanText (t : String) : String :=
  let c := String.intercalate " " (pywords t)
  if c = "" then "empty text"
  else if 32000 < c.length then String.mk (c.data.take 32000)
  else c

/-- Python exception kinds raised by the embedded pipeline. -/
inductive PyError where
  | valueError (msg : String)
  | exception (msg : String)
deriving DecidableEq

/-- generate_embeddings (embeddings.py, lines 72-110): process the input
in batches of 100, clean each batch, issue one remote call per batch and
concatenate the per-batch results in order; a failing remote call aborts
the whole operation with the message prefix of the source.  The remote
endpoint is the parameter api.  Note that the source never compares the
number of returned vectors with the number of strings sent. -/
def generateEmbeddingsGo (api : List String → Except String (List (List Int))) :
    Nat → List String → Except PyError (List (List Int))
  | _, [] => Except.ok []
  | 0, _ :: _ => Except.ok []
  | fuel + 1, t :: ts =>
    match api (((t :: ts).take 100).map cleanText) with
    | Except.error e =>
        Except.error (PyError.exception (String.append "Failed to generate embeddings: " e))
    | Except.ok embs =>
        match generateEmbeddingsGo api fuel ((t :: ts).drop 100) with
        | Except.error e => Except.error e
        | Except.ok rest => Except.ok (embs ++ rest)

/-- generate_embeddings wrapper: the batch loop starts on the whole
input, with fuel adequate for every batch (each batch consumes 100 >= 1
inputs, so fuel = length of the input never runs out and the zero-fuel
branch of the loop is unreachable). -/
def generate_embeddings (api : List String → Except String (List (List Int)))
    (texts : List String) : Except PyError (List (List Int)) :=
  generateEmbeddingsGo api texts.length texts

/-- One stored chunk record: the id, vector and payload fields of the
PointStruct built by create_document_chunks (embeddings.py, lines
124-141) and upserted by store_document. -/
structure ChunkRecord where
  id : String
  vector : List Int
  document_id : String
  filename : String
  user_id : String
  chunk_index : Nat
  chunk_text : String
  file_hash : String
  created_at : String
  chunk_word_count : Nat
  embedding_model : String
deriving DecidableEq

/-- create_document_chunks (embeddings.py, lines 112-143): segment with
the default window, raise ValueError when no chunks result, embed all
chunk texts in one batcher call, then build one record per
(chunk, embedding) pair of the zip, sharing one document id, one md5
fingerprint of the whole content, the owner and the configured model.
The generated uuid4 values, the md5 digest and the timestamp are the
parameters documentId, chunkId, contentHash and now; the source computes
one timestamp per record, which the claims never distinguish. -/
def create_document_chunks
    (api : List String → Except String (List (List Int)))
    (contentHash : String → String) (documentId : String) (chunkId : Nat → String)
    (now : String) (model : String)
    (content filename user_id : String) : Except PyError (List ChunkRecord) :=
  let chunks := chunk_text content 500 50
  if chunks.isEmpty then
    Except.error (PyError.valueError "No chunks were created from the document")
  else
    match generate_embeddings api chunks with
    | Except.error e => Except.error e
    | Except.ok embeddings =>
        Except.ok ((chunks.zip embeddings).enum.map fun ie =>
          { id := chunkId ie.1
            vector := ie.2.2
            document_id := documentId
            filename := filename
            user_id := user_id
            chunk_index := ie.1
            chunk_text := ie.2.1
            file_hash := contentHash content
            created_at := now
            chunk_word_count := (pywords ie.2.1).length
            embedding_model := model })

/-- Result dictionary returned by store_document (qdrant_service.py,
lines 63-68). -/
structure StoreResult where
  document_id : String
  filename : String
  chunks_count : Nat
  total_words : Nat
deriving DecidableEq

/-- Document-level summary built by get_user_documents
(qdrant_service.py, lines 131-144). -/
structure DocSummary where
  document_id : String
  filename : String
  created_at : String
  chunks_count : Nat
  total_words : Nat
deriving DecidableEq

/-- Search result dictionary returned by search_documents
(qdrant_service.py, lines 96-107). -/
structure SearchResult where
  id : String
  score : Int
  filename : String
  chunk_text : String
  document_id : String
  chunk_index : Nat
  created_at : String
deriving DecidableEq

/-- Qdrant upsert: records keyed by id, an upsert overwrites records
with a colliding id and adds the rest.  The store is the list of records
of the single documents collection. -/
def qdrant_upsert (store points : List ChunkRecord) : List ChunkRecord :=
  store.filter (fun q => points.all fun p => p.id ≠ q.id) ++ points

/-- Qdrant scroll: a single scroll call returns one page of at most
limit records matching the filter, together with the next-page offset
(some offset when further matching records exist, none otherwise).  The
qdrant-client default when the caller passes no limit is 10. -/
def qdrant_scroll (store : List ChunkRecord) (f : ChunkRecord → Bool) (limit : Nat) :
    List ChunkRecord × Option Nat :=
  ((store.filter f).take limit,
   if (store.filter f).length ≤ limit then none else some limit)

/-- Descending insertion by a score oracle, modelling the ranking the
index applies to search results. -/
def insertRanked (score : ChunkRecord → Int) (p : ChunkRecord) :
    List ChunkRecord → List ChunkRecord
  | [] => [p]
  | q :: qs => if score q < score p then p :: q :: qs else q :: insertRanked score p qs

/-- Qdrant search: the records matching the filter, ranked by descending
score, truncated to limit.  The cosine similarity to the query vector is
abstracted as the score oracle. -/
def qdrant_search (store : List ChunkRecord) (score : ChunkRecord → Int)
    (f : ChunkRecord → Bool) (limit : Nat) : List ChunkRecord :=
  ((store.filter f).foldr (insertRanked score) []).take limit

/-- store_document (qdrant_service.py, lines 35-68): build the chunk
records, raise ValueError when none were produced, upsert them as points
and return the summary dictionary read off chunks[0] and the chunk
list.  Returns the summary together with the updated store. -/
def store_document
    (api : List String → Except String (List (List Int)))
    (contentHash : String → String) (documentId : String) (chunkId : Nat → String)
    (now : String) (model : String)
    (content filename user_id : String) (store : List ChunkRecord) :
    Except PyError (StoreResult × List ChunkRecord) :=
  match create_document_chunks api contentHash documentId chunkId now model
      content filename user_id with
  | Except.error e => Except.error e
  | Except.ok chunks =>
    match chunks with
    | [] => Except.error (PyError.valueError "No chunks were created from the document")
    | c0 :: _ =>
      Except.ok
        ({ document_id := c0.document_id
           filename := filename
           chunks_count := chunks.length
           total_words := (chunks.map ChunkRecord.chunk_word_count).sum },
         qdrant_upsert store chunks)

/-- Folding step of the grouping loop in get_user_documents
(qdrant_service.py, lines 131-144): the first record of a document seeds
its summary, later records of the same document increment chunks_count
and add chunk_word_count.  A Python dict preserves insertion order, so
the dict of summaries is a list seeded in first-occurrence order. -/
def addPoint (acc : List DocSummary) (p : ChunkRecord) : List DocSummary :=
  if acc.any (fun d => d.document_id = p.document_id) then
    acc.map fun d =>
      if d.document_id = p.document_id then
        { d with chunks_count := d.chunks_count + 1,
                 total_words := d.total_words + p.chunk_word_count }
      else d
  else
    acc ++ [{ document_id := p.document_id
              filename := p.filename
              created_at := p.created_at
              chunks_count := 1
              total_words := p.chunk_word_count }]

/-- get_user_documents (qdrant_service.py, lines 109-146): one scroll
page filtered on the owner with the given limit (route default 50),
grouped by document_id.  The source reads only scroll_result[0] and
never follows the next-page offset. -/
def get_user_documents (store : List ChunkRecord) (user_id : String) (limit : Nat) :
    List DocSummary :=
  ((qdrant_scroll store (fun p => p.user_id = user_id) limit).1).foldl addPoint []

/-- delete_document (qdrant_service.py, lines 148-177): one scroll page
filtered on document_id and user_id, with no limit argument, so the
qdrant-client default limit 10 applies; the next-page offset is
discarded.  If the page is empty return false, otherwise delete exactly
the ids of that page and return true.  Returns the flag together with
the updated store. -/
def delete_document (store : List ChunkRecord) (document_id user_id : String) :
    Bool × List ChunkRecord :=
  let page :=
    (qdrant_scroll store
      (fun p => p.document_id = document_id ∧ p.user_id = user_id) 10).1
  let point_ids := page.map ChunkRecord.id
  if point_ids.isEmpty then (false, store)
  else (true, store.filter fun p => ¬ point_ids.contains p.id)

/-- search_documents (qdrant_service.py, lines 70-107): embed the query
as a single-item batch, index the first returned vector (an empty result
would raise IndexError in the source), search the index filtered on the
owner and shape the hits.  The dependence of the ranking on the query
vector is the score oracle applied to the vector taken from
query_embeddings[0]. -/
def search_documents
    (api : List String → Except String (List (List Int)))
    (score : List Int → ChunkRecord → Int)
    (store : List ChunkRecord) (query user_id : String) (limit : Nat) :
    Except PyError (List SearchResult) :=
  match generate_embeddings api [query] with
  | Except.error e => Except.error e
  | Except.ok [] => Except.error (PyError.exception "list index out of range")
  | Except.ok (qv :: _) =>
      Except.ok ((qdrant_search store (score qv) (fun p => p.user_id = user_id) limit).map
        fun p =>
          { id := p.id
            score := score qv p
            filename := p.filename
            chunk_text := p.chunk_text
            document_id := p.document_id
            chunk_index := p.chunk_index
            created_at := p.created_at })

/-- search_relevant_context (routes/chat.py, lines 31-37): the
conversational-context path degrades every failure of search_documents
to an empty result list. -/
def search_relevant_context
    (api : List String → Except String (List (List Int)))
    (score : List Int → ChunkRecord → Int)
    (store : List ChunkRecord) (query user_id : String) (limit : Nat) :
    List SearchResult :=
  match search_documents api score store query user_id limit with
  | Except.ok r => r
  | Except.error _ => []

/-- HTTP error raised by the documents routes. -/
structure HTTPError where
  status : Nat
  detail : String
deriving DecidableEq

/-- Message of a Python exception as rendered by str(e). -/
def pyErrMsg : PyError → String
  | PyError.valueError m => m
  | PyError.exception m => m

/-- search_user_documents (routes/documents.py, lines 102-122): the
explicit user-facing search path re-raises every failure of
search_documents as an HTTP 500 error with the message of the source. -/
def search_user_documents_route
    (api : List String → Except String (List (List Int)))
    (score : List Int → ChunkRecord → Int)
    (store : List ChunkRecord) (query user_id : String) (limit : Nat) :
    Except HTTPError (List SearchResult) :=
  match search_documents api score store query user_id limit with
  | Except.ok r => Except.ok r
  | Except.error e =>
      Except.error
        { status := 500
          detail := String.append "Error searching documents: " (pyErrMsg e) }

/-- De-overlapped concatenation of a chunk sequence: the first chunk in
full, every later chunk with its first overlap words removed.  This is
the reading of the specification sentence about reconstructing the
original word sequence. -/
def deov (overlap : Nat) : List (List String) → List String
  | [] => []
  | c :: cs => c ++ (cs.map (List.drop overlap)).flatten

/-- Remote endpoint that honours the embed contract with the constant
vector [0]: one vector per string sent, in order. -/
def okApi : List String → Except String (List (List Int)) :=
  fun ts => Except.ok (ts.map fun _ => [0])

/-- Remote endpoint that answers every call with zero vectors, whatever
the number of strings sent: a count-mismatching provider. -/
def mismatchApi : List String → Except String (List (List Int)) :=
  fun _ => Except.ok []

/-- Remote endpoint whose every call fails. -/
def failApi : List String → Except String (List (List Int)) :=
  fun _ => Except.error "boom"

/-- Remote endpoint that fails exactly on a one-string batch and honours
the embed contract on every other batch: on a 101-item input the first
100-item batch succeeds and the second batch fails. -/
def flakyApi : List String → Except String (List (List Int)) :=
  fun ts => if ts.length = 1 then Except.error "boom"
            else Except.ok (ts.map fun _ => [0])

/-- Distinct chunk ids for concrete runs: the id of chunk i is the
string of i letters x. -/
def cid2 : Nat → String := fun i => String.mk (List.replicate i 'x')

/-- Concrete document text of 501 whitespace-separated words, each the
single letter w: with the default window 500 / overlap 50 it segments
into exactly two chunks (500 words and 51 words). -/
def content501 : String :=
  String.mk ((List.replicate 500 ['w', ' ']).flatten ++ ['w'])

/-- Concrete store holding one document d of owner u with eleven chunks:
one more chunk than the default scroll page of the deletion path. -/
def store11 : List ChunkRecord :=
  (List.range 11).map fun i =>
    { id := String.mk (List.replicate i 'x')
      vector := []
      document_id := "d"
      filename := "f"
      user_id := "u"
      chunk_index := i
      chunk_text := "t"
      file_hash := "h"
      created_at := "c"
      chunk_word_count := 1
      embedding_model := "m" }

lemma chunkWordsGo_irrel (size overlap : Nat) (h : overlap < size) :
    ∀ (f1 f2 : Nat) (ws : List String), ws.length ≤ f1 → ws.length ≤ f2 →
      chunkWordsGo size overlap f1 ws = chunkWordsGo size overlap f2 ws := by
  intro f1
  induction f1 with
  | zero =>
    intro f2 ws h1 _
    have hws : ws = [] := List.length_eq_zero.mp (Nat.le_zero.mp h1)
    subst hws
    cases f2 <;> simp [chunkWordsGo]
  | succ f ih =>
    intro f2 ws h1 h2
    cases ws with
    | nil => cases f2 <;> simp [chunkWordsGo]
    | cons w tl =>
      cases f2 with
      | zero => simp at h2
      | succ f2' =>
        simp only [chunkWordsGo]
        by_cases hle : (w :: tl).length ≤ size
        · rw [if_pos (by simpa using hle), if_pos (by simpa using hle)]
        · rw [if_neg (by simpa using hle), if_neg (by simpa using hle)]
          have hlen : ((w :: tl).drop (size - overlap)).length ≤ f := by
            simp only [List.length_drop, List.length_cons] at *
            omega
          have hlen2 : ((w :: tl).drop (size - overlap)).length ≤ f2' := by
            simp only [List.length_drop, List.length_cons] at *
            omega
          rw [ih f2' _ hlen hlen2]

lemma chunkWords_nil (size overlap : Nat) : chunkWords size overlap [] = [] := by
  by_cases h : size ≤ overlap <;> simp [chunkWords, h, chunkWordsGo]

/-- The zero-fuel branch of chunkWordsGo is unreachable for the fuel
value the wrapper passes. -/
lemma chunkWordsGo_fuel (size overlap : Nat) (h : overlap < size) (ws : List String) :
    chunkWordsGo size overlap ws.length ws
      = chunkWordsGo size overlap (ws.length + 1) ws :=
  chunkWordsGo_irrel size overlap h _ _ ws (Nat.le_refl _) (Nat.le_succ _)

lemma chunkWords_small (size overlap : Nat) (ws : List String) (h : overlap < size)
    (hne : ws ≠ []) (hle : ws.length ≤ size) : chunkWords size overlap ws = [ws] := by
  cases ws with
  | nil => exact absurd rfl hne
  | cons w tl =>
    have hov : ¬ size ≤ overlap := by omega
    simp only [chunkWords, hov, if_false, List.length_cons, chunkWordsGo]
    rw [if_pos (by simpa using hle), List.take_of_length_le hle]

lemma chunkWords_step (size overlap : Nat) (ws : List String) (h : overlap < size)
    (hgt : size < ws.length) :
    chunkWords size overlap ws
      = ws.take size :: chunkWords size overlap (ws.drop (size - overlap)) := by
  cases ws with
  | nil => simp at hgt
  | cons w tl =>
    have hov : ¬ size ≤ overlap := by omega
    have hle : ¬ (w :: tl).length ≤ size := by omega
    simp only [chunkWords, hov, if_false, List.length_cons, chunkWordsGo]
    rw [if_neg (by simpa using hle)]
    have hlen1 : ((w :: tl).drop (size - overlap)).length ≤ tl.length := by
      simp only [List.length_drop, List.length_cons]
      omega
    rw [chunkWordsGo_irrel size overlap h tl.length
      ((w :: tl).drop (size - overlap)).length _ hlen1 (Nat.le_refl _)]

lemma chunkWords_ne_nil (size overlap : Nat) (ws : List String) (h : overlap < size)
    (hne : ws ≠ []) : chunkWords size overlap ws ≠ [] := by
  by_cases hle : ws.length ≤ size
  · rw [chunkWords_small size overlap ws h hne hle]
    simp
  · rw [chunkWords_step size overlap ws h (by omega)]
    simp

lemma chunkWords_flatten_drop (size overlap : Nat) (h : overlap < size) :
    ∀ (n : Nat) (ws : List String), ws.length ≤ n →
      ((chunkWords size overlap ws).map (List.drop overlap)).flatten = ws.drop overlap := by
  intro n
  induction n with
  | zero =>
    intro ws h1
    have hws : ws = [] := List.length_eq_zero.mp (Nat.le_zero.mp h1)
    subst hws
    simp [chunkWords_nil]
  | succ n ih =>
    intro ws h1
    rcases eq_or_ne ws [] with rfl | hne
    · simp [chunkWords_nil]
    by_cases hle : ws.length ≤ size
    · rw [chunkWords_small size overlap ws h hne hle]
      simp
    · push_neg at hle
      rw [chunkWords_step size overlap ws h hle]
      simp only [List.map_cons, List.flatten_cons]
      rw [ih (ws.drop (size - overlap))
        (by simp only [List.length_drop]; omega)]
      rw [List.drop_take, List.drop_drop]
      have h2' : size - overlap + overlap = size := by omega
      rw [h2']
      conv_rhs => rw [← List.take_append_drop (size - overlap) (ws.drop overlap)]
      congr 1
      rw [List.drop_drop]
      congr 1
      omega

lemma chunkWords_deov (size overlap : Nat) (h : overlap < size) (ws : List String) :
    deov overlap (chunkWords size overlap ws) = ws := by
  rcases eq_or_ne ws [] with rfl | hne
  · simp [chunkWords_nil, deov]
  by_cases hle : ws.length ≤ size
  · rw [chunkWords_small size overlap ws h hne hle]
    simp [deov]
  · push_neg at hle
    rw [chunkWords_step size overlap ws h hle]
    show ws.take size ++ ((chunkWords size overlap
      (ws.drop (size - overlap))).map (List.drop overlap)).flatten = ws
    rw [chunkWords_flatten_drop size overlap h _ _ (Nat.le_refl _)]
    rw [List.drop_drop]
    have : size - overlap + overlap = size := by omega
    rw [this, List.take_append_drop]

lemma chunkWords_length_le (size overlap : Nat) :
    ∀ (n : Nat) (ws : List String), ws.length ≤ n →
      ∀ c ∈ chunkWords size overlap ws, c.length ≤ size := by
  intro n
  induction n with
  | zero =>
    intro ws h1
    have hws : ws = [] := List.length_eq_zero.mp (Nat.le_zero.mp h1)
    subst hws
    simp [chunkWords_nil]
  | succ n ih =>
    intro ws h1 c hc
    by_cases hov : overlap < size
    case neg =>
      rw [chunkWords] at hc
      rw [if_pos (by omega)] at hc
      simp at hc
    rcases eq_or_ne ws [] with rfl | hne
    · rw [chunkWords_nil] at hc
      simp at hc
    by_cases hle : ws.length ≤ size
    · rw [chunkWords_small size overlap ws hov hne hle] at hc
      simp at hc
      subst hc
      exact hle
    · push_neg at hle
      rw [chunkWords_step size overlap ws hov hle] at hc
      rcases List.mem_cons.mp hc with rfl | hc
      · simp [List.length_take]
      · exact ih (ws.drop (size - overlap))
          (by simp only [List.length_drop]; omega) c hc

lemma chunkWords_head_take (size overlap : Nat) (h : overlap < size) (ws : List String)
    (hne : ws ≠ []) :
    ∃ tl, chunkWords size overlap ws = ws.take size :: tl := by
  by_cases hle : ws.length ≤ size
  · exact ⟨[], by rw [chunkWords_small size overlap ws h hne hle,
      List.take_of_length_le hle]⟩
  · exact ⟨_, chunkWords_step size overlap ws h (by omega)⟩

lemma chunkWords_chain (size overlap : Nat) (h : overlap < size) :
    ∀ (n : Nat) (ws : List String), ws.length ≤ n →
      List.Chain' (fun a b => a.drop (size - overlap) = b.take overlap
        ∧ (b.take overlap).length = overlap) (chunkWords size overlap ws) := by
  intro n
  induction n with
  | zero =>
    intro ws h1
    have hws : ws = [] := List.length_eq_zero.mp (Nat.le_zero.mp h1)
    subst hws
    simp [chunkWords_nil]
  | succ n ih =>
    intro ws h1
    rcases eq_or_ne ws [] with rfl | hne
    · simp [chunkWords_nil]
    by_cases hle : ws.length ≤ size
    · rw [chunkWords_small size overlap ws h hne hle]
      simp
    · push_neg at hle
      rw [chunkWords_step size overlap ws h hle]
      have hlen' : (ws.drop (size - overlap)).length ≤ n := by
        simp only [List.length_drop]
        omega
      have hne' : ws.drop (size - overlap) ≠ [] := by
        intro hcontra
        have := congrArg List.length hcontra
        simp only [List.length_drop, List.length_nil] at this
        omega
      obtain ⟨tl, htl⟩ := chunkWords_head_take size overlap h (ws.drop (size - overlap)) hne'
      have hchain := ih (ws.drop (size - overlap)) hlen'
      rw [htl] at hchain ⊢
      refine List.chain'_cons.mpr ⟨⟨?_, ?_⟩, hchain⟩
      · rw [List.drop_take, List.take_take]
        congr 1
        omega
      · rw [List.take_take, List.length_take, List.length_drop]
        omega

lemma generateEmbeddingsGo_irrel (api : List String → Except String (List (List Int))) :
    ∀ (f1 f2 : Nat) (ts : List String), ts.length ≤ f1 → ts.length ≤ f2 →
      generateEmbeddingsGo api f1 ts = generateEmbeddingsGo api f2 ts := by
  intro f1
  induction f1 with
  | zero =>
    intro f2 ts h1 _
    have hts : ts = [] := List.length_eq_zero.mp (Nat.le_zero.mp h1)
    subst hts
    cases f2 <;> simp [generateEmbeddingsGo]
  | succ f ih =>
    intro f2 ts h1 h2
    cases ts with
    | nil => cases f2 <;> simp [generateEmbeddingsGo]
    | cons t ts' =>
      cases f2 with
      | zero => simp at h2
      | succ f2' =>
        simp only [generateEmbeddingsGo]
        cases hapi : api (((t :: ts').take 100).map cleanText) with
        | error e => rfl
        | ok embs =>
          have hlen : ((t :: ts').drop 100).length ≤ f := by
            simp only [List.length_drop, List.length_cons] at *
            omega
          have hlen2 : ((t :: ts').drop 100).length ≤ f2' := by
            simp only [List.length_drop, List.length_cons] at *
            omega
          rw [ih f2' _ hlen hlen2]

/-- Unfolding equation of the batch loop for a nonempty input. -/
lemma generate_embeddings_cons (api : List String → Except String (List (List Int)))
    (t : String) (ts : List String) :
    generate_embeddings api (t :: ts) =
      match api (((t :: ts).take 100).map cleanText) with
      | Except.error e =>
          Except.error (PyError.exception (String.append "Failed to generate embeddings: " e))
      | Except.ok embs =>
          match generate_embeddings api ((t :: ts).drop 100) with
          | Except.error e => Except.error e
          | Except.ok rest => Except.ok (embs ++ rest) := by
  show generateEmbeddingsGo api (t :: ts).length (t :: ts) = _
  simp only [List.length_cons, generateEmbeddingsGo]
  cases hapi : api (((t :: ts).take 100).map cleanText) with
  | error e => rfl
  | ok embs =>
    rw [generateEmbeddingsGo_irrel api ts.length ((t :: ts).drop 100).length
      ((t :: ts).drop 100) (by simp only [List.length_drop, List.length_cons]; omega)
      (Nat.le_refl _)]
    rfl

/-- With a remote endpoint that returns one vector per string of every
call, the batcher returns exactly the per-item embeddings of the cleaned
inputs, in order. -/
lemma generate_embeddings_map (f : String → List Int)
    (api : List String → Except String (List (List Int)))
    (hap : ∀ ts, api ts = Except.ok (ts.map f)) :
    ∀ (n : Nat) (texts : List String), texts.length ≤ n →
      generate_embeddings api texts = Except.ok (texts.map fun t => f (cleanText t)) := by
  intro n
  induction n with
  | zero =>
    intro texts h1
    have hts : texts = [] := List.length_eq_zero.mp (Nat.le_zero.mp h1)
    subst hts
    rfl
  | succ n ih =>
    intro texts h1
    cases texts with
    | nil => rfl
    | cons t ts =>
      rw [generate_embeddings_cons, hap]
      have hrec := ih ((t :: ts).drop 100)
        (by simp only [List.length_drop, List.length_cons] at *; omega)
      rw [hrec]
      simp only [List.map_map, Function.comp_def]
      rw [← List.map_append, List.take_append_drop]

/-- A failing remote call makes the whole batcher fail with the typed
message of the source. -/
lemma generate_embeddings_fail (msg : String) (texts : List String) (hne : texts ≠ []) :
    generate_embeddings (fun _ => Except.error msg) texts
      = Except.error (PyError.exception (String.append "Failed to generate embeddings: " msg)) := by
  cases texts with
  | nil => exact absurd rfl hne
  | cons t ts => rw [generate_embeddings_cons]

/-- A remote call failing on batch k, after the calls for every earlier
batch succeeded, aborts the whole batcher with the typed error of that
first failing call; no vectors of the earlier successful batches
survive, since the error result carries none. -/
lemma generate_embeddings_abort (api : List String → Except String (List (List Int))) :
    ∀ (n : Nat) (texts : List String), texts.length ≤ n →
      ∀ (k : Nat) (msg : String),
        (∀ j < k, ∃ embs, api (((texts.drop (100 * j)).take 100).map cleanText)
            = Except.ok embs) →
        texts.drop (100 * k) ≠ [] →
        api (((texts.drop (100 * k)).take 100).map cleanText) = Except.error msg →
        generate_embeddings api texts
          = Except.error (PyError.exception
              (String.append "Failed to generate embeddings: " msg)) := by
  intro n
  induction n with
  | zero =>
    intro texts h1 k msg _ hne _
    have hts : texts = [] := List.length_eq_zero.mp (Nat.le_zero.mp h1)
    subst hts
    simp at hne
  | succ n ih =>
    intro texts h1 k msg hok hne hfail
    cases texts with
    | nil => simp at hne
    | cons t ts =>
      have harith : ∀ m : Nat,
          ((t :: ts).drop 100).drop (100 * m) = (t :: ts).drop (100 * (m + 1)) := by
        intro m
        rw [List.drop_drop]
        congr 1
        ring
      cases k with
      | zero =>
        rw [Nat.mul_zero, List.drop_zero] at hfail
        rw [generate_embeddings_cons, hfail]
      | succ kk =>
        obtain ⟨embs0, hembs0⟩ := hok 0 (Nat.succ_pos kk)
        rw [Nat.mul_zero, List.drop_zero] at hembs0
        have hrec : generate_embeddings api ((t :: ts).drop 100)
            = Except.error (PyError.exception
                (String.append "Failed to generate embeddings: " msg)) := by
          apply ih ((t :: ts).drop 100)
            (by simp only [List.length_drop, List.length_cons] at h1 ⊢; omega) kk msg
          · intro j hj
            rw [harith j]
            exact hok (j + 1) (Nat.succ_lt_succ hj)
          · rw [harith kk]
            exact hne
          · rw [harith kk]
            exact hfail
        rw [generate_embeddings_cons, hembs0, hrec]

/-- Every error outcome of the batcher is the typed embedding error of
the first failing remote call: there is a batch index k whose call
failed with that message while the calls for all earlier batches
succeeded. -/
lemma generate_embeddings_error_shape
    (api : List String → Except String (List (List Int))) :
    ∀ (n : Nat) (texts : List String), texts.length ≤ n →
      ∀ e, generate_embeddings api texts = Except.error e →
        ∃ msg k,
          e = PyError.exception (String.append "Failed to generate embeddings: " msg)
          ∧ api (((texts.drop (100 * k)).take 100).map cleanText) = Except.error msg
          ∧ ∀ j < k, ∃ embs, api (((texts.drop (100 * j)).take 100).map cleanText)
              = Except.ok embs := by
  intro n
  induction n with
  | zero =>
    intro texts h1 e he
    have hts : texts = [] := List.length_eq_zero.mp (Nat.le_zero.mp h1)
    subst hts
    exact Except.noConfusion
      (show (Except.ok [] : Except PyError (List (List Int))) = Except.error e from he)
  | succ n ih =>
    intro texts h1 e he
    cases texts with
    | nil =>
      exact Except.noConfusion
        (show (Except.ok [] : Except PyError (List (List Int))) = Except.error e from he)
    | cons t ts =>
      have harith : ∀ m : Nat,
          ((t :: ts).drop 100).drop (100 * m) = (t :: ts).drop (100 * (m + 1)) := by
        intro m
        rw [List.drop_drop]
        congr 1
        ring
      rw [generate_embeddings_cons] at he
      cases hapi : api (((t :: ts).take 100).map cleanText) with
      | error msg =>
        rw [hapi] at he
        have h2 : Except.error (α := List (List Int)) (PyError.exception
            (String.append "Failed to generate embeddings: " msg)) = Except.error e := he
        refine ⟨msg, 0, (Except.error.inj h2).symm, ?_, ?_⟩
        · rw [Nat.mul_zero, List.drop_zero]
          exact hapi
        · intro j hj
          exact absurd hj (Nat.not_lt_zero j)
      | ok embs =>
        rw [hapi] at he
        cases hrec : generate_embeddings api ((t :: ts).drop 100) with
        | ok rest =>
          rw [hrec] at he
          exact Except.noConfusion
            (show (Except.ok (embs ++ rest) : Except PyError (List (List Int)))
              = Except.error e from he)
        | error e2 =>
          rw [hrec] at he
          have h2 : Except.error (α := List (List Int)) e2 = Except.error e := he
          obtain ⟨msg, k, hshape, hfail, hall⟩ := ih ((t :: ts).drop 100)
            (by simp only [List.length_drop, List.length_cons] at h1 ⊢; omega) e2 hrec
          refine ⟨msg, k + 1, by rw [← Except.error.inj h2]; exact hshape, ?_, ?_⟩
          · rw [← harith k]
            exact hfail
          · intro j hj
            cases j with
            | zero =>
              rw [Nat.mul_zero, List.drop_zero]
              exact ⟨embs, hapi⟩
            | succ jj =>
              rw [← harith jj]
              exact hall jj (Nat.lt_of_succ_lt_succ hj)

lemma zip_self_map {α β : Type} (g : α → β) :
    ∀ (l : List α), l.zip (l.map g) = l.map fun a => (a, g a) := by
  intro l
  induction l with
  | nil => rfl
  | cons a l ih => simp [ih]

lemma chunk_text_empty_iff (content : String) :
    chunk_text content 500 50 = [] ↔ pywords content = [] := by
  constructor
  · intro h
    by_contra hne
    exact chunkWords_ne_nil 500 50 (pywords content) (by omega) hne
      (by simpa [chunk_text] using h)
  · intro h
    simp [chunk_text, h, chunkWords_nil]

/-- Shape of a successful chunk-builder run: the records are exactly the
enumerated (text, vector) pairs wrapped with the shared metadata. -/
lemma create_ok_shape (api : List String → Except String (List (List Int)))
    (contentHash : String → String) (documentId : String) (chunkId : Nat → String)
    (now model content filename user_id : String) (recs : List ChunkRecord)
    (h : create_document_chunks api contentHash documentId chunkId now model
          content filename user_id = Except.ok recs) :
    ∃ pairs : List (String × List Int),
      recs = pairs.enum.map fun ie =>
        { id := chunkId ie.1
          vector := ie.2.2
          document_id := documentId
          filename := filename
          user_id := user_id
          chunk_index := ie.1
          chunk_text := ie.2.1
          file_hash := contentHash content
          created_at := now
          chunk_word_count := (pywords ie.2.1).length
          embedding_model := model } := by
  unfold create_document_chunks at h
  by_cases hemp : (chunk_text content 500 50).isEmpty
  · rw [if_pos hemp] at h
    simp at h
  · rw [if_neg hemp] at h
    cases hgen : generate_embeddings api (chunk_text content 500 50) with
    | error e =>
      rw [hgen] at h
      simp at h
    | ok embs =>
      rw [hgen] at h
      simp only [Except.ok.injEq] at h
      exact ⟨(chunk_text content 500 50).zip embs, h.symm⟩

lemma create_mem_fields (api : List String → Except String (List (List Int)))
    (contentHash : String → String) (documentId : String) (chunkId : Nat → String)
    (now model content filename user_id : String) (recs : List ChunkRecord)
    (h : create_document_chunks api contentHash documentId chunkId now model
          content filename user_id = Except.ok recs) :
    ∀ r ∈ recs, r.document_id = documentId ∧ r.user_id = user_id
      ∧ r.file_hash = contentHash content ∧ r.embedding_model = model
      ∧ r.filename = filename ∧ r.created_at = now
      ∧ r.chunk_word_count = (pywords r.chunk_text).length := by
  obtain ⟨pairs, hp⟩ := create_ok_shape api contentHash documentId chunkId now model
    content filename user_id recs h
  subst hp
  intro r hr
  obtain ⟨ie, _, rfl⟩ := List.mem_map.mp hr
  exact ⟨rfl, rfl, rfl, rfl, rfl, rfl, rfl⟩

lemma insertRanked_mem (s : ChunkRecord → Int) (p a : ChunkRecord) :
    ∀ (l : List ChunkRecord), a ∈ insertRanked s p l ↔ a = p ∨ a ∈ l := by
  intro l
  induction l with
  | nil => simp [insertRanked]
  | cons q qs ih =>
    simp only [insertRanked]
    by_cases hq : s q < s p
    · simp [hq]
    · simp [hq, ih]
      tauto

lemma rankBy_mem (s : ChunkRecord → Int) (a : ChunkRecord) :
    ∀ (l : List ChunkRecord), a ∈ l.foldr (insertRanked s) [] ↔ a ∈ l := by
  intro l
  induction l with
  | nil => simp
  | cons q qs ih =>
    simp only [List.foldr_cons, insertRanked_mem, ih, List.mem_cons]

lemma addPoint_nil (p : ChunkRecord) :
    addPoint [] p
      = [⟨p.document_id, p.filename, p.created_at, 1, p.chunk_word_count⟩] := by
  simp [addPoint]

/-- Folding records that all belong to one document over a singleton
summary list counts every record and accumulates its word count. -/
lemma foldl_addPoint_proj (d : String) :
    ∀ (pts : List ChunkRecord), (∀ p ∈ pts, p.document_id = d) →
    ∀ (s : DocSummary), s.document_id = d →
      (pts.foldl addPoint [s]).map (fun x => (x.document_id, x.chunks_count, x.total_words))
        = [(d, s.chunks_count + pts.length,
            s.total_words + (pts.map ChunkRecord.chunk_word_count).sum)] := by
  intro pts
  induction pts with
  | nil =>
    intro _ s hs
    simp [hs]
  | cons p pts ih =>
    intro hmem s hs
    have hpd : p.document_id = d := hmem p (List.mem_cons_self p pts)
    have hstep : addPoint [s] p =
        [{ s with chunks_count := s.chunks_count + 1,
                  total_words := s.total_words + p.chunk_word_count }] := by
      simp [addPoint, hs, hpd]
    rw [List.foldl_cons, hstep]
    rw [ih (fun q hq => hmem q (List.mem_cons_of_mem p hq)) _ (by simpa using hs)]
    simp only [List.length_cons, List.map_cons, List.sum_cons, List.cons.injEq,
      Prod.mk.injEq, and_true, true_and, eq_self_iff_true]
    omega

lemma filter_filter_nil (store : List ChunkRecord) (p q : ChunkRecord → Bool)
    (h : store.filter p = []) : (store.filter q).filter p = [] := by
  rw [List.filter_eq_nil_iff] at h ⊢
  intro a ha
  exact h a (List.mem_filter.mp ha).1

/-- C7: for every non-empty input text and parameters with
overlap < window_size, the Segmenter emits the joined word windows of
the tokenized text; de-overlapped concatenation of the windows
reconstructs the original word sequence in order, every window has at
most window_size words, and every pair of consecutive windows shares
exactly overlap words (the trailing window included, which is stronger
than the claim, so the claim follows). -/
theorem segmenter_reconstruction (text : String) (size overlap : Nat)
    (hov : overlap < size) (hne : pywords text ≠ []) :
    chunk_text text size overlap
        = (chunkWords size overlap (pywords text)).map (String.intercalate " ")
    ∧ chunkWords size overlap (pywords text) ≠ []
    ∧ deov overlap (chunkWords size overlap (pywords text)) = pywords text
    ∧ (∀ c ∈ chunkWords size overlap (pywords text), c.length ≤ size)
    ∧ List.Chain' (fun a b => a.drop (size - overlap) = b.take overlap
        ∧ (b.take overlap).length = overlap) (chunkWords size overlap (pywords text)) :=
  ⟨rfl, chunkWords_ne_nil size overlap (pywords text) hov hne,
   chunkWords_deov size overlap hov (pywords text),
   chunkWords_length_le size overlap (pywords text).length (pywords text) (Nat.le_refl _),
   chunkWords_chain size overlap hov (pywords text).length (pywords text) (Nat.le_refl _)⟩

/-- Witness for C7 at text "a b c d e" with window 3 and overlap 1. -/
theorem segmenter_reconstruction_witness :
    (1 < 3 ∧ pywords "a b c d e" ≠ [])
    ∧ deov 1 (chunkWords 3 1 (pywords "a b c d e")) = pywords "a b c d e" :=
  ⟨⟨by decide, by decide⟩,
   (segmenter_reconstruction "a b c d e" 3 1 (by decide) (by decide)).2.2.1⟩

/-- C8 counterexample: the input "a  b" (two words, an internal double
space) has 2 < 500 words, and the Segmenter with the default parameters
returns the single chunk "a b", the words joined by single spaces — not
the trimmed input, which keeps its internal double space.  The claim
that the single chunk equals the whole trimmed input is therefore false
at this input. -/
theorem segmenter_short_input_counterexample :
    (pywords "a  b").length = 2
    ∧ chunk_text "a  b" 500 50 = ["a b"]
    ∧ pytrim "a  b" = "a  b"
    ∧ ("a b" : String) ≠ "a  b" := by
  decide

/-- C8 amended: empty or whitespace-only input yields the empty
sequence; input with a positive word count strictly below window_size
yields exactly one chunk, equal to the input words joined by single
spaces (the whitespace-normalized input — which coincides with the
trimmed input only when internal whitespace is already single spaces). -/
theorem segmenter_edge_cases (text : String) (size overlap : Nat) (hov : overlap < size) :
    (pywords text = [] → chunk_text text size overlap = [])
    ∧ (0 < (pywords text).length → (pywords text).length < size →
        chunk_text text size overlap = [String.intercalate " " (pywords text)]) := by
  constructor
  · intro h
    simp [chunk_text, h, chunkWords_nil]
  · intro h1 h2
    have hne : pywords text ≠ [] := by
      intro hc
      rw [hc] at h1
      simp at h1
    rw [chunk_text, chunkWords_small size overlap (pywords text) hov hne (by omega)]
    rfl

/-- Witness for C8 amended at text "a b" with window 3 and overlap 1. -/
theorem segmenter_edge_cases_witness :
    (1 < 3 ∧ 0 < (pywords "a b").length ∧ (pywords "a b").length < 3)
    ∧ chunk_text "a b" 3 1 = [String.intercalate " " (pywords "a b")] :=
  ⟨⟨by decide, by decide, by decide⟩,
   (segmenter_edge_cases "a b" 3 1 (by decide)).2 (by decide) (by decide)⟩

/-- C10: on the empty input list the batch loop never runs, so no remote
call is made — the result is the empty list for every possible remote
endpoint, in particular for one whose every call fails, so no embedding
error can ever be raised on empty input. -/
theorem embedding_batcher_empty_input
    (api : List String → Except String (List (List Int))) :
    generate_embeddings api [] = Except.ok [] :=
  rfl

/-- C4 counterexample: a remote endpoint answering the one-string batch
with zero vectors (a count mismatch) does not make the operation abort:
generate_embeddings succeeds and returns zero vectors for one input, so
neither the abort-on-mismatch part nor the unconditional
output-length-equals-input-length part of the claim holds. -/
theorem embedding_batcher_mismatch_counterexample :
    generate_embeddings mismatchApi ["hello"] = Except.ok []
    ∧ (["hello"] : List String).length = 1 :=
  ⟨rfl, rfl⟩

/-- C4 amended: whenever every remote call returns one vector per string
sent, the batcher returns exactly one vector per input in order (the
embedding of the cleaned text, so an all-empty-string input still gets
one vector per item via the placeholder).  Moreover, for any endpoint
and any input, a remote call failing at any batch position k after the
calls for all earlier batches succeeded aborts the whole operation with
the typed embedding error — the vectors of the earlier successful
batches are discarded, since the error result carries none — and,
conversely, every error outcome of the batcher is that typed error of
the first failing call.  The source does not itself verify the returned
count. -/
theorem embedding_batcher_amended :
    (∀ (f : String → List Int) (api : List String → Except String (List (List Int))),
      (∀ ts, api ts = Except.ok (ts.map f)) →
      ∀ texts : List String,
        generate_embeddings api texts = Except.ok (texts.map fun t => f (cleanText t)))
    ∧ (∀ (api : List String → Except String (List (List Int)))
        (texts : List String) (k : Nat) (msg : String),
        (∀ j < k, ∃ embs, api (((texts.drop (100 * j)).take 100).map cleanText)
            = Except.ok embs) →
        texts.drop (100 * k) ≠ [] →
        api (((texts.drop (100 * k)).take 100).map cleanText) = Except.error msg →
        generate_embeddings api texts
          = Except.error (PyError.exception
              (String.append "Failed to generate embeddings: " msg)))
    ∧ (∀ (api : List String → Except String (List (List Int)))
        (texts : List String) (e : PyError),
        generate_embeddings api texts = Except.error e →
        ∃ msg k,
          e = PyError.exception (String.append "Failed to generate embeddings: " msg)
          ∧ api (((texts.drop (100 * k)).take 100).map cleanText) = Except.error msg
          ∧ ∀ j < k, ∃ embs, api (((texts.drop (100 * j)).take 100).map cleanText)
              = Except.ok embs) :=
  ⟨fun f api hap texts =>
      generate_embeddings_map f api hap texts.length texts (Nat.le_refl _),
   fun api texts k msg hok hne hfail =>
      generate_embeddings_abort api texts.length texts (Nat.le_refl _) k msg
        hok hne hfail,
   fun api texts e he =>
      generate_embeddings_error_shape api texts.length texts (Nat.le_refl _) e he⟩

/-- Witness for C4 amended: the contract-honouring endpoint okApi maps
the two inputs (one of them empty) to one vector each; and on a 101-item
input, flakyApi succeeds on the first 100-item batch and fails on the
second batch, which aborts the whole operation with the typed error and
no partial result. -/
theorem embedding_batcher_amended_witness :
    ((List.replicate 101 "a").drop (100 * 1) ≠ []
      ∧ flakyApi ((((List.replicate 101 "a").drop (100 * 1)).take 100).map cleanText)
          = Except.error "boom")
    ∧ generate_embeddings okApi ["a", ""] = Except.ok [[0], [0]]
    ∧ generate_embeddings flakyApi (List.replicate 101 "a")
        = Except.error (PyError.exception
            (String.append "Failed to generate embeddings: " "boom")) := by
  refine ⟨⟨by decide, by rfl⟩, ?_, ?_⟩
  · exact embedding_batcher_amended.1 (fun _ => [0]) okApi (fun ts => rfl) ["a", ""]
  · exact embedding_batcher_amended.2.1 flakyApi (List.replicate 101 "a") 1 "boom"
      (fun j hj => by
        rw [Nat.lt_one_iff.mp hj]
        exact ⟨_, rfl⟩)
      (by decide)
      rfl

/-- C3: every search and scroll request of the Retrieval Service and the
Document Aggregator carries the exact-match owner filter, so for any two
distinct owners A and B, whatever the store contents, the score oracle
and the limit, no record owned by B is ever returned from a search or
scroll issued with owner filter A. -/
theorem tenant_isolation (store : List ChunkRecord) (s : ChunkRecord → Int)
    (A B : String) (limit : Nat) (hAB : A ≠ B) :
    (∀ p ∈ qdrant_search store s (fun p => p.user_id = A) limit, p.user_id ≠ B)
    ∧ (∀ p ∈ (qdrant_scroll store (fun p => p.user_id = A) limit).1, p.user_id ≠ B) := by
  constructor
  · intro p hp
    have hmem := List.take_subset limit _ hp
    have hfil := (rankBy_mem s p _).mp hmem
    have hA : p.user_id = A := of_decide_eq_true (List.mem_filter.mp hfil).2
    rw [hA]
    exact hAB
  · intro p hp
    have hfil := List.take_subset limit _ hp
    have hA : p.user_id = A := of_decide_eq_true (List.mem_filter.mp hfil).2
    rw [hA]
    exact hAB

/-- Witness for C3 on the concrete store store11 (all records owned by
u) with owners u and v. -/
theorem tenant_isolation_witness :
    (("u" : String) ≠ "v")
    ∧ (∀ p ∈ qdrant_search store11 (fun _ => 0) (fun p => p.user_id = "u") 5,
        p.user_id ≠ "v")
    ∧ (∀ p ∈ (qdrant_scroll store11 (fun p => p.user_id = "u") 5).1,
        p.user_id ≠ "v") :=
  ⟨by decide,
   (tenant_isolation store11 (fun _ => 0) "u" "v" 5 (by decide)).1,
   (tenant_isolation store11 (fun _ => 0) "u" "v" 5 (by decide)).2⟩

/-- C9: every failure of search_documents is degraded to the empty
result sequence on the conversational-context path and re-raised as a
typed HTTP 500 error on the explicit user-facing search path, while a
success passes through unchanged on both paths. -/
theorem retrieval_failure_policy
    (api : List String → Except String (List (List Int)))
    (score : List Int → ChunkRecord → Int)
    (store : List ChunkRecord) (query user_id : String) (limit : Nat) :
    (∀ e, search_documents api score store query user_id limit = Except.error e →
        search_relevant_context api score store query user_id limit = []
        ∧ search_user_documents_route api score store query user_id limit
            = Except.error
                { status := 500
                  detail := String.append "Error searching documents: " (pyErrMsg e) })
    ∧ (∀ rs, search_documents api score store query user_id limit = Except.ok rs →
        search_relevant_context api score store query user_id limit = rs
        ∧ search_user_documents_route api score store query user_id limit
            = Except.ok rs) := by
  constructor
  · intro e he
    constructor
    · simp [search_relevant_context, he]
    · simp [search_user_documents_route, he]
  · intro rs hrs
    constructor
    · simp [search_relevant_context, hrs]
    · simp [search_user_documents_route, hrs]

/-- Witness for C9: a failing embedding endpoint makes search_documents
fail; the chat path returns the empty list and the documents path the
500 error. -/
theorem retrieval_failure_policy_witness :
    search_documents failApi (fun _ _ => 0) store11 "q" "u" 5
      = Except.error (PyError.exception
          (String.append "Failed to generate embeddings: " "boom"))
    ∧ search_relevant_context failApi (fun _ _ => 0) store11 "q" "u" 5 = []
    ∧ search_user_documents_route failApi (fun _ _ => 0) store11 "q" "u" 5
        = Except.error
            { status := 500
              detail := String.append "Error searching documents: "
                (pyErrMsg (PyError.exception
                  (String.append "Failed to generate embeddings: " "boom"))) } := by
  have hfail : search_documents failApi (fun _ _ => 0) store11 "q" "u" 5
      = Except.error (PyError.exception
          (String.append "Failed to generate embeddings: " "boom")) := rfl
  exact ⟨hfail,
    ((retrieval_failure_policy failApi (fun _ _ => 0) store11 "q" "u" 5).1 _ hfail).1,
    ((retrieval_failure_policy failApi (fun _ _ => 0) store11 "q" "u" 5).1 _ hfail).2⟩

/-- C1 (code bug): on a store holding one document d of owner u with
eleven chunks, delete_document scrolls without a limit argument, so the
qdrant-client default page of 10 applies and the next-page offset is
discarded; the call deletes only those ten ids and reports true, after
which a scroll for (d, u) still returns one record — not zero — and a
second delete_document call for the same pair returns true — not false.
This contradicts the claim, the deletion-idempotence sentence of the
specification, and the docstring of delete_document (Delete all chunks
of a specific document). -/
theorem delete_document_first_page_only :
    (delete_document store11 "d" "u").1 = true
    ∧ ((qdrant_scroll (delete_document store11 "d" "u").2
        (fun p => p.document_id = "d" ∧ p.user_id = "u") 10).1).length = 1
    ∧ (delete_document (delete_document store11 "d" "u").2 "d" "u").1 = true := by
  decide

/-- C2 (code bug): the scroll issued by the Deletion Service for the
eleven matching records of store11 is a single page of the qdrant-client
default limit 10: it returns 10 of the 11 matching records and reports a
next-page offset, which the caller ignores — so the caller receives one
page, not the complete result set, although no limit was given. -/
theorem scroll_returns_single_page :
    ((qdrant_scroll store11 (fun p => p.document_id = "d" ∧ p.user_id = "u") 10).1).length = 10
    ∧ (store11.filter (fun p => p.document_id = "d" ∧ p.user_id = "u")).length = 11
    ∧ (qdrant_scroll store11 (fun p => p.document_id = "d" ∧ p.user_id = "u") 10).2
        = some 10 := by
  decide

lemma map_chunk_index_enum (mkf : Nat × (String × List Int) → ChunkRecord)
    (hmk : ∀ ie, (mkf ie).chunk_index = ie.1) (l : List (String × List Int)) :
    (l.enum.map mkf).map ChunkRecord.chunk_index = List.range l.length := by
  rw [List.map_map]
  have hc : (ChunkRecord.chunk_index ∘ mkf) = Prod.fst := funext hmk
  rw [hc, List.enum_map_fst]

/-- C6: with a remote endpoint that honours the one-vector-per-string
contract, the Chunk Builder raises the typed empty-document ValueError
exactly when segmentation yields zero chunks (empty or whitespace-only
text), and otherwise returns a non-empty record sequence whose records
all share the generated document id, the fingerprint of the whole input,
the owner and the model id, whose chunk_index values are exactly 0..n-1
in order, and whose word count is the word count of the record text. -/
theorem chunk_builder_invariants
    (f : String → List Int)
    (api : List String → Except String (List (List Int)))
    (hap : ∀ ts, api ts = Except.ok (ts.map f))
    (contentHash : String → String) (documentId : String) (chunkId : Nat → String)
    (now model content filename user_id : String) :
    (pywords content = [] →
      create_document_chunks api contentHash documentId chunkId now model
          content filename user_id
        = Except.error (PyError.valueError "No chunks were created from the document"))
    ∧ (pywords content ≠ [] →
      ∃ recs, create_document_chunks api contentHash documentId chunkId now model
            content filename user_id = Except.ok recs
        ∧ recs ≠ []
        ∧ recs.map ChunkRecord.chunk_index = List.range recs.length
        ∧ ∀ r ∈ recs, r.document_id = documentId ∧ r.file_hash = contentHash content
            ∧ r.user_id = user_id ∧ r.embedding_model = model
            ∧ r.chunk_word_count = (pywords r.chunk_text).length) := by
  constructor
  · intro h
    have hnil : chunk_text content 500 50 = [] := (chunk_text_empty_iff content).mpr h
    unfold create_document_chunks
    rw [if_pos (by simp [hnil])]
  · intro hne
    have hct : chunk_text content 500 50 ≠ [] :=
      fun hc => hne ((chunk_text_empty_iff content).mp hc)
    have hemp : ¬ (chunk_text content 500 50).isEmpty := by
      simpa [List.isEmpty_iff] using hct
    have hgen := generate_embeddings_map f api hap (chunk_text content 500 50).length
      (chunk_text content 500 50) (Nat.le_refl _)
    have hcreate : create_document_chunks api contentHash documentId chunkId now model
        content filename user_id
        = Except.ok ((((chunk_text content 500 50).map
            fun c => (c, f (cleanText c))).enum).map fun ie =>
          { id := chunkId ie.1
            vector := ie.2.2
            document_id := documentId
            filename := filename
            user_id := user_id
            chunk_index := ie.1
            chunk_text := ie.2.1
            file_hash := contentHash content
            created_at := now
            chunk_word_count := (pywords ie.2.1).length
            embedding_model := model }) := by
      unfold create_document_chunks
      rw [if_neg hemp, hgen]
      show Except.ok _ = Except.ok _
      rw [zip_self_map]
    refine ⟨_, hcreate, ?_, ?_, ?_⟩
    · intro hnil
      apply hct
      have hlen := congrArg List.length hnil
      simp only [List.length_map, List.enum_length, List.length_nil] at hlen
      exact List.length_eq_zero.mp hlen
    · rw [map_chunk_index_enum _ (fun ie => rfl)]
      congr 1
      simp [List.enum_length]
    · intro r hr
      obtain ⟨ie, _, rfl⟩ := List.mem_map.mp hr
      exact ⟨rfl, rfl, rfl, rfl, rfl⟩

/-- Witness for C6 at content "a b c" with the contract-honouring
endpoint okApi. -/
theorem chunk_builder_invariants_witness :
    pywords "a b c" ≠ []
    ∧ ∃ recs, create_document_chunks okApi (fun _ => "h") "d" cid2 "n" "m"
          "a b c" "f.txt" "u" = Except.ok recs
        ∧ recs ≠ []
        ∧ recs.map ChunkRecord.chunk_index = List.range recs.length
        ∧ ∀ r ∈ recs, r.document_id = "d" ∧ r.file_hash = "h"
            ∧ r.user_id = "u" ∧ r.embedding_model = "m"
            ∧ r.chunk_word_count = (pywords r.chunk_text).length :=
  ⟨by decide,
   (chunk_builder_invariants (fun _ => [0]) okApi (fun ts => rfl) (fun _ => "h") "d"
      cid2 "n" "m" "a b c" "f.txt" "u").2 (by decide)⟩

/-- C5 amended: for a document successfully stored for an owner into a
tenant partition that was empty, the Document Aggregator for that owner
reports chunks_count equal to the number of chunks the Chunk Builder
produced and total_words equal to the sum of their word counts —
provided the chunk count does not exceed the scan limit of the
aggregator run (the default route limit is 50). -/
theorem store_roundtrip_amended
    (api : List String → Except String (List (List Int)))
    (contentHash : String → String) (documentId : String) (chunkId : Nat → String)
    (now model content filename user_id : String)
    (store : List ChunkRecord) (limit : Nat) (recs : List ChunkRecord)
    (hcreate : create_document_chunks api contentHash documentId chunkId now model
        content filename user_id = Except.ok recs)
    (hne : recs ≠ [])
    (hempty : store.filter (fun p => p.user_id = user_id) = [])
    (hlim : recs.length ≤ limit) :
    ∃ res newStore,
      store_document api contentHash documentId chunkId now model content filename
          user_id store = Except.ok (res, newStore)
      ∧ res.chunks_count = recs.length
      ∧ res.total_words = (recs.map ChunkRecord.chunk_word_count).sum
      ∧ (get_user_documents newStore user_id limit).map
          (fun d => (d.document_id, d.chunks_count, d.total_words))
        = [(documentId, recs.length, (recs.map ChunkRecord.chunk_word_count).sum)] := by
  have hfields := create_mem_fields api contentHash documentId chunkId now model
    content filename user_id recs hcreate
  obtain ⟨r0, rest, rfl⟩ : ∃ r0 rest, recs = r0 :: rest := by
    cases recs with
    | nil => exact absurd rfl hne
    | cons a l => exact ⟨a, l, rfl⟩
  refine ⟨{ document_id := r0.document_id
            filename := filename
            chunks_count := (r0 :: rest).length
            total_words := ((r0 :: rest).map ChunkRecord.chunk_word_count).sum },
          qdrant_upsert store (r0 :: rest), ?_, rfl, rfl, ?_⟩
  · unfold store_document
    rw [hcreate]
  · have hfilter : (qdrant_upsert store (r0 :: rest)).filter
        (fun p => decide (p.user_id = user_id)) = r0 :: rest := by
      unfold qdrant_upsert
      rw [List.filter_append,
        filter_filter_nil store (fun p => decide (p.user_id = user_id)) _ hempty,
        List.filter_eq_self.mpr (fun a ha => decide_eq_true ((hfields a ha).2.1)),
        List.nil_append]
    simp only [get_user_documents, qdrant_scroll]
    rw [hfilter, List.take_of_length_le hlim]
    rw [List.foldl_cons, addPoint_nil]
    rw [foldl_addPoint_proj documentId rest
      (fun q hq => (hfields q (List.mem_cons_of_mem r0 hq)).1)
      _ ((hfields r0 (List.mem_cons_self r0 rest)).1)]
    simp only [List.length_cons, List.map_cons, List.sum_cons, List.cons.injEq,
      Prod.mk.injEq, and_true, true_and, eq_self_iff_true]
    omega

/-- Witness for C5 amended: content "a b c" stored into the empty store
for owner u, aggregated with the default limit 50. -/
theorem store_roundtrip_amended_witness :
    (create_document_chunks okApi (fun _ => "h") "d" cid2 "n" "m" "a b c" "f.txt" "u"
        = Except.ok [⟨"", [0], "d", "f.txt", "u", 0, "a b c", "h", "n", 3, "m"⟩]
      ∧ (([] : List ChunkRecord).filter (fun p => p.user_id = "u") = []))
    ∧ ∃ res newStore,
        store_document okApi (fun _ => "h") "d" cid2 "n" "m" "a b c" "f.txt" "u" []
          = Except.ok (res, newStore)
        ∧ res.chunks_count
            = ([⟨"", [0], "d", "f.txt", "u", 0, "a b c", "h", "n", 3, "m"⟩] : List ChunkRecord).length
        ∧ res.total_words
            = (([⟨"", [0], "d", "f.txt", "u", 0, "a b c", "h", "n", 3, "m"⟩] : List ChunkRecord).map
                ChunkRecord.chunk_word_count).sum
        ∧ (get_user_documents newStore "u" 50).map
            (fun d => (d.document_id, d.chunks_count, d.total_words))
          = [("d",
              ([⟨"", [0], "d", "f.txt", "u", 0, "a b c", "h", "n", 3, "m"⟩] : List ChunkRecord).length,
              (([⟨"", [0], "d", "f.txt", "u", 0, "a b c", "h", "n", 3, "m"⟩] : List ChunkRecord).map
                ChunkRecord.chunk_word_count).sum)] := by
  have hc : create_document_chunks okApi (fun _ => "h") "d" cid2 "n" "m" "a b c" "f.txt" "u"
      = Except.ok [⟨"", [0], "d", "f.txt", "u", 0, "a b c", "h", "n", 3, "m"⟩] := by
    rfl
  exact ⟨⟨hc, rfl⟩,
    store_roundtrip_amended okApi (fun _ => "h") "d" cid2 "n" "m" "a b c" "f.txt" "u"
      [] 50 _ hc (by decide) rfl (by decide)⟩

lemma pywordsAux_replicate :
    ∀ n : Nat, pywordsAux ((List.replicate n ['w', ' ']).flatten ++ ['w']) []
      = List.replicate (n + 1) "w" := by
  intro n
  induction n with
  | zero => decide
  | succ n ih =>
    rw [List.replicate_succ, List.flatten_cons]
    have hshape : (['w', ' '] ++ (List.replicate n ['w', ' ']).flatten) ++ ['w']
        = 'w' :: ' ' :: ((List.replicate n ['w', ' ']).flatten ++ ['w']) := by
      simp [List.append_assoc]
    rw [hshape]
    show String.mk ['w'] :: pywordsAux ((List.replicate n ['w', ' ']).flatten ++ ['w']) [] = _
    rw [ih]
    rfl

lemma pywords_content501 : pywords content501 = List.replicate 501 "w" := by
  show pywordsAux ((List.replicate 500 ['w', ' ']).flatten ++ ['w']) [] = _
  exact pywordsAux_replicate 500

lemma chunkWords_content501 :
    chunkWords 500 50 (List.replicate 501 "w")
      = [List.replicate 500 "w", List.replicate 51 "w"] := by
  rw [chunkWords_step 500 50 _ (by omega) (by rw [List.length_replicate]; omega)]
  rw [List.take_replicate, List.drop_replicate]
  norm_num
  rw [chunkWords_small 500 50 _ (by omega)
    (by
      intro hc
      have hlen := congrArg List.length hc
      rw [List.length_replicate] at hlen
      simp at hlen)
    (by rw [List.length_replicate]; omega)]

set_option maxRecDepth 8192 in
/-- C5 counterexample: content501 has 501 words, so the Chunk Builder
produces two chunks and store_document succeeds, reporting
chunks_count = 2; but a Document Aggregator run for the owner with scan
limit 1 reports chunks_count = 1 for that document — the original
round-trip claim fails once the chunk count exceeds the scan limit of
the aggregator run, because the aggregator reads a single scroll page
and never follows the next-page offset. -/
theorem aggregator_scan_limit_counterexample :
    (store_document okApi (fun _ => "h") "d" cid2 "now" "m" content501 "f.txt" "u"
        []).toOption.map
      (fun x => (x.1.chunks_count,
        (get_user_documents x.2 "u" 1).map DocSummary.chunks_count))
    = some (2, [1]) := by
  have hchunks : chunk_text content501 500 50
      = [String.intercalate " " (List.replicate 500 "w"),
         String.intercalate " " (List.replicate 51 "w")] := by
    rw [chunk_text, pywords_content501, chunkWords_content501]
    rfl
  have hgen : generate_embeddings okApi
      [String.intercalate " " (List.replicate 500 "w"),
       String.intercalate " " (List.replicate 51 "w")]
      = Except.ok [[0], [0]] := by
    exact generate_embeddings_map (fun _ => [0]) okApi (fun ts => rfl) 2 _ (Nat.le_refl 2)
  have hcreate : create_document_chunks okApi (fun _ => "h") "d" cid2 "now" "m"
      content501 "f.txt" "u"
      = Except.ok
        [⟨cid2 0, [0], "d", "f.txt", "u", 0,
          String.intercalate " " (List.replicate 500 "w"), "h", "now",
          (pywords (String.intercalate " " (List.replicate 500 "w"))).length, "m"⟩,
         ⟨cid2 1, [0], "d", "f.txt", "u", 1,
          String.intercalate " " (List.replicate 51 "w"), "h", "now",
          (pywords (String.intercalate " " (List.replicate 51 "w"))).length, "m"⟩] := by
    unfold create_document_chunks
    rw [hchunks]
    rw [if_neg (by rw [List.isEmpty_cons]; exact Bool.false_ne_true)]
    rw [hgen]
    rfl
  unfold store_document
  rw [hcreate]
  rfl
